import Mathlib

/-!
# Verification of the "Criador de Data Pack" dataset/view consistency core

Shallow embedding of the CSV editor's core state logic (`src/App.tsx` and
the near-duplicate variant `src/unnamed/part_001`): the master row
collection, the filtered view, the pagination slice, the cell-edit
propagator and the merge/dedup append, together with the session state
machine driven by user actions.

Rows are JavaScript objects mapping column names to string values; we
model them as association lists in insertion order.  JavaScript-specific
behaviours that the code relies on (`String(undefined) = "undefined"`,
truthiness of strings, `{...row, [c]: v}` spread update) are embedded
explicitly.
-/

set_option autoImplicit false

namespace DataPack

/-- A CSV row: a JS object mapping column names to string field values,
in insertion order (`CsvRow` in `src/types`). -/
abbrev Row := List (String × String)

/-- JS property read `row[c]`: the value at key `c`, or `undefined`
(modelled as `none`) when absent. -/
def getField : Row → String → Option String
  | [], _ => none
  | (k, x) :: rest, c => if k = c then some x else getField rest c

/-- JS object spread `{...row, [c]: v}`: replaces the value at an existing
key in place, or appends the new key at the end. -/
def setField : Row → String → String → Row
  | [], c, v => [(c, v)]
  | (k, x) :: rest, c, v =>
      if k = c then (k, v) :: rest else (k, x) :: setField rest c v

/-- JS `String(x)` applied to a possibly-`undefined` field value. -/
def jsString : Option String → String
  | some s => s
  | none => "undefined"

/-- Emptiness of a string, computed structurally on its characters. -/
def strEmpty (s : String) : Bool := s.data.isEmpty

/-- JS truthiness of a possibly-`undefined` string (`undefined` and `""`
are falsy). -/
def jsTruthy : Option String → Bool
  | some s => !strEmpty s
  | none => false

/-- JS `headers[0]` guarded by a truthiness check (`if (keyColumn)`):
yields the key column only when the header list is non-empty and its
first entry is a non-empty string. -/
def jsHead : List String → Option String
  | [] => none
  | k :: _ => if strEmpty k then none else some k

/-- JS `c.toLowerCase()` on a single character (ASCII case mapping; the
identifiers and search terms the core compares are ASCII). -/
def jsCharToLower (c : Char) : Char :=
  if 'A' ≤ c ∧ c ≤ 'Z' then Char.ofNat (c.toNat + 32) else c

/-- JS `s.toLowerCase()`. -/
def jsToLower (s : String) : String := String.mk (s.data.map jsCharToLower)

/-- JS `s.trim()`: strip whitespace from both ends. -/
def jsTrim (s : String) : String :=
  String.mk (((s.data.dropWhile Char.isWhitespace).reverse.dropWhile
    Char.isWhitespace).reverse)

/-- Substring test on character lists, matching JS `String.includes`. -/
def charsContains (pat : List Char) : List Char → Bool
  | [] => pat.isEmpty
  | c :: rest => pat.isPrefixOf (c :: rest) || charsContains pat rest

/-- JS `s.includes(pat)`. -/
def jsIncludes (s pat : String) : Bool :=
  charsContains pat.toList s.toList

/-- Team configuration (`TEAMS` in `src/data/teams`): key ↦ identity
value list, as consumed through `TEAM_IDS`. -/
abbrev TeamConfig := List (String × List String)

/-- `TEAM_IDS[t]`: look up a team's identity list by key. -/
def lookupTeam : TeamConfig → String → Option (List String)
  | [], _ => none
  | (k, ids) :: rest, t => if k = t then some ids else lookupTeam rest t

/-- One row's test in the team-filter stage of `runFilters`
(`src/App.tsx` line 44): `teamIds.has(String(row[keyColumn]))`. -/
def rowInTeam (ids : List String) (keyColumn : String) (row : Row) : Bool :=
  ids.contains (jsString (getField row keyColumn))

/-- One row's test in the search stage of `runFilters` (`src/App.tsx`
lines 51-55): some value of the row, lower-cased, contains the
lower-cased term. -/
def rowMatchesSearch (lowered : String) (row : Row) : Bool :=
  (row.map Prod.snd).any fun v => jsIncludes (jsToLower v) lowered

/-- The team-filter stage of `runFilters` (`src/App.tsx` lines 40-46):
applied only when a team is selected (`teamToApply` truthy), configured
(`TEAM_IDS[teamToApply]` defined) and a truthy key column exists. -/
def teamStage (cfg : TeamConfig) (headers : List String)
    (sourceData : List Row) (teamToApply : Option String) : List Row :=
  match teamToApply with
  | none => sourceData
  | some t =>
      if strEmpty t then sourceData
      else
        match lookupTeam cfg t with
        | none => sourceData
        | some ids =>
            match jsHead headers with
            | none => sourceData
            | some keyColumn => sourceData.filter (rowInTeam ids keyColumn)

/-- The search stage of `runFilters` (`src/App.tsx` lines 49-56):
applied only when the trimmed, lower-cased term is non-empty. -/
def searchStage (termToApply : String) (results : List Row) : List Row :=
  let lowered := jsToLower (jsTrim termToApply)
  if strEmpty lowered then results
  else results.filter (rowMatchesSearch lowered)

/-- The pure core of `runFilters` (`src/App.tsx` lines 36-60): team
stage, then search stage, both AND-composed stable filters. -/
def runFiltersPure (cfg : TeamConfig) (headers : List String)
    (sourceData : List Row) (termToApply : String)
    (teamToApply : Option String) : List Row :=
  searchStage termToApply (teamStage cfg headers sourceData teamToApply)

/-! ## Edit propagator (`handleDataChange`, `src/App.tsx` lines 103-116) -/

/-- The per-row update closure `updateRow` of `handleDataChange`: rows
whose key-column value strictly equals (`===`) the target row's are
rewritten by the spread update, all others are returned as-is. -/
def updateRow (keyColumn : String) (rowToUpdate : Row)
    (columnId value : String) (row : Row) : Row :=
  if getField row keyColumn = getField rowToUpdate keyColumn then
    setField row columnId value
  else row

/-- Pure core of `handleDataChange`: maps `updateRow` over both the
master collection and the cached view; a falsy key column makes the
whole call a no-op (`if (!keyColumn) return`). -/
def handleDataChange (headers : List String) (master view : List Row)
    (rowToUpdate : Row) (columnId value : String) : List Row × List Row :=
  match jsHead headers with
  | none => (master, view)
  | some keyColumn =>
      (master.map (updateRow keyColumn rowToUpdate columnId value),
       view.map (updateRow keyColumn rowToUpdate columnId value))

/-- Modelled from the spec: the `DataTable` cell editor is not under
`src/` (only its caller `App` is).  Per the spec ("the key column is
read-only", "the caller must reject key edits before invoking this") and
the UI text "A primeira coluna é a chave e não pode ser editada", the
editor never fires the edit callback for the key column; edit requests
that target it are dropped before `handleDataChange` runs. -/
def gatedDataChange (headers : List String) (master view : List Row)
    (rowToUpdate : Row) (columnId value : String) : List Row × List Row :=
  match jsHead headers with
  | none => (master, view)
  | some keyColumn =>
      if columnId = keyColumn then (master, view)
      else handleDataChange headers master view rowToUpdate columnId value

/-! ## Merge/dedup engine (`handleAddLegends`, `src/App.tsx` lines 132-209) -/

/-- Error taxonomy of the append operation. -/
inductive MergeError where
  | insufficientColumns
  deriving DecidableEq

/-- Row construction for one appended legend (`src/App.tsx` lines
184-196): key and name columns from the candidate, every further column
filled with the empty string. -/
def buildLegendRow (keyColumn nameColumn : String) (rest : List String)
    (cand : String × String) : Row :=
  (keyColumn, cand.1) :: (nameColumn, cand.2) :: rest.map (fun h => (h, ""))

/-- Pure core of `handleAddLegends`, generalised over the candidate
batch of (id, name) pairs: fails when fewer than two columns exist,
otherwise appends exactly the candidates whose key is absent from the
master's key set, and reports how many were appended. -/
def mergeAppend (headers : List String) (master : List Row)
    (candidates : List (String × String)) :
    Except MergeError (List Row × Nat) :=
  match headers with
  | keyColumn :: nameColumn :: rest =>
      let newRows := candidates.map (buildLegendRow keyColumn nameColumn rest)
      let existingKeys := master.map (fun row => getField row keyColumn)
      let uniqueNewRows :=
        newRows.filter (fun row => !existingKeys.contains (getField row keyColumn))
      Except.ok (master ++ uniqueNewRows, uniqueNewRows.length)
  | _ => Except.error MergeError.insufficientColumns

/-- One line of the hard-coded `legendsCsv` constant split at the first
commas: `parts[0]` is the id, the rest rejoined with commas is the name
(`src/App.tsx` lines 184-187). -/
def parseLegendLine (line : String) : String × String :=
  match line.splitOn "," with
  | [] => ("", "")
  | id :: rest => (id, String.intercalate "," rest)

/-- The candidate batch embedded in `handleAddLegends`: the non-blank
lines of the `legendsCsv` constant, parsed into (id, name) pairs. -/
def legendCandidates (legendsCsv : String) : List (String × String) :=
  ((legendsCsv.splitOn "\n").filter (fun line => !strEmpty (jsTrim line))).map
    parseLegendLine

/-! ## Pagination engine -/

/-- JS `Math.ceil(totalRows / rowsPerPage) || 1` on natural inputs
(`src/App.tsx` line 230, `src/unnamed/part_001` line 138). -/
def totalPagesJS (totalRows rowsPerPage : Nat) : Nat :=
  if (totalRows + rowsPerPage - 1) / rowsPerPage = 0 then 1
  else (totalRows + rowsPerPage - 1) / rowsPerPage

/-- The slice shown for page `page` (1-based): `startIndex =
(page - 1) * rowsPerPage` then `slice(startIndex, startIndex +
rowsPerPage)` (`src/App.tsx` lines 231-235). -/
def pageSlice (view : List Row) (rowsPerPage page : Nat) : List Row :=
  (view.drop ((page - 1) * rowsPerPage)).take rowsPerPage

/-- The `paginatedData` memo of `src/unnamed/part_001` lines 136-144:
clamps the requested page into `[1, totalPages]`
(`safeCurrentPage = Math.max(1, Math.min(currentPage, totalPages))`)
before slicing.  The requested page is an integer: 0 and negative
requests are legal inputs.  Returns (slice, effectivePage, totalPages). -/
def paginate (view : List Row) (rowsPerPage : Nat) (currentPage : Int) :
    List Row × Int × Nat :=
  let totalPages := totalPagesJS view.length rowsPerPage
  let safeCurrentPage := max 1 (min currentPage (totalPages : Int))
  let startIndex := ((safeCurrentPage - 1) * (rowsPerPage : Int)).toNat
  ((view.drop startIndex).take rowsPerPage, safeCurrentPage, totalPages)

/-! ## Load (`handleFileLoaded`, `src/App.tsx` lines 62-87) -/

/-- The survival test of one field in the blank-row check:
`row[field] && String(row[field]).trim() !== ''`. -/
def fieldNonBlank (v : Option String) : Bool :=
  jsTruthy v && !strEmpty (jsTrim (jsString v))

/-- `nonEmptyData` (`src/App.tsx` lines 69-71): keep a row when some
declared field holds a truthy value that is not whitespace-only. -/
def nonEmptyFilter (fields : List String) (rows : List Row) : List Row :=
  rows.filter (fun row => fields.any (fun f => fieldNonBlank (getField row f)))

/-- The user-visible message built for a non-empty parse-error list. -/
def parseErrorMessage (firstMessage : String) : String :=
  "Erro ao analisar o CSV: " ++ firstMessage ++
    ". Por favor, verifique o formato do arquivo."

/-- The user-visible message for a dataset with no surviving row. -/
def emptyDatasetMessage : String :=
  "O arquivo CSV está vazio ou não pôde ser analisado corretamente."

/-- The user-visible message for an append with fewer than two columns. -/
def insufficientColumnsMessage : String :=
  "Para adicionar lendas, o CSV carregado deve ter pelo menos duas colunas (chave e nome)."

/-! ## Session state machine (`App`, `src/App.tsx`) -/

/-- The `useState` cells of the `App` component that the core operates
on (modal visibility omitted: it never touches the data model). -/
structure AppState where
  data : List Row
  filteredData : List Row
  headers : List String
  fileName : String
  error : String
  searchTerm : String
  activeSearchTerm : String
  activeTeamFilter : Option String
  currentPage : Nat
  rowsPerPage : Nat
  deriving DecidableEq

/-- `DEFAULT_ROWS_PER_PAGE` (`src/App.tsx` line 15). -/
def DEFAULT_ROWS_PER_PAGE : Nat := 50

/-- The initial state of a session: every collection empty, page 1,
default page size. -/
def initialState : AppState where
  data := []
  filteredData := []
  headers := []
  fileName := ""
  error := ""
  searchTerm := ""
  activeSearchTerm := ""
  activeTeamFilter := none
  currentPage := 1
  rowsPerPage := DEFAULT_ROWS_PER_PAGE

/-- The discrete user actions that drive the session.  `fileLoaded`
carries the parse collaborator's output (error-message list, field list,
parsed rows) and the file name; `dataChange` is a cell edit from the
table; `addLegends` carries the candidate batch text (the hard-coded
`legendsCsv` constant in the source). -/
inductive Action where
  | fileLoaded (errors : List String) (fields : List String)
      (rows : List Row) (fname : String)
  | reset
  | dataChange (rowToUpdate : Row) (columnId value : String)
  | addLegends (legendsCsv : String)
  | setSearchTerm (s : String)
  | triggerSearch
  | clearSearch
  | selectTeam (k : String)
  | clearTeamFilter
  | setPage (n : Nat)
  | setRowsPerPage (n : Nat)
  | clampPage

/-- Whether an action is a cell edit. -/
def Action.isEdit : Action → Bool
  | .dataChange _ _ _ => true
  | _ => false

/-- One step of the session: the handler `App` runs for each action
(`handleFileLoaded`, `handleReset`, `handleDataChange`,
`handleAddLegends`, `triggerSearch`, `handleClearSearch`,
`handleSelectTeam`, `handleClearTeamFilter`, the pagination callbacks
and the page-clamping effect of `src/App.tsx` lines 237-241). -/
def step (cfg : TeamConfig) (s : AppState) : Action → AppState
  | .fileLoaded errors fields rows fname =>
      match errors with
      | e :: _ => { s with error := parseErrorMessage e }
      | [] =>
          let nonEmptyData := nonEmptyFilter fields rows
          if nonEmptyData.isEmpty then { s with error := emptyDatasetMessage }
          else
            { s with
                error := ""
                fileName := fname
                headers := fields
                data := nonEmptyData
                filteredData := nonEmptyData
                currentPage := 1
                searchTerm := ""
                activeSearchTerm := ""
                activeTeamFilter := none }
  | .reset => initialState
  | .dataChange rowToUpdate columnId value =>
      let p := handleDataChange s.headers s.data s.filteredData rowToUpdate
        columnId value
      { s with data := p.1, filteredData := p.2 }
  | .addLegends legendsCsv =>
      match mergeAppend s.headers s.data (legendCandidates legendsCsv) with
      | .error _ => { s with error := insufficientColumnsMessage }
      | .ok (newData, appended) =>
          if appended = 0 then s
          else
            { s with
                data := newData
                filteredData := runFiltersPure cfg s.headers newData
                  s.activeSearchTerm s.activeTeamFilter
                currentPage := 1 }
  | .setSearchTerm t => { s with searchTerm := t }
  | .triggerSearch =>
      let termToApply := jsTrim s.searchTerm
      { s with
          activeSearchTerm := termToApply
          filteredData := runFiltersPure cfg s.headers s.data termToApply
            s.activeTeamFilter
          currentPage := 1 }
  | .clearSearch =>
      { s with
          searchTerm := ""
          activeSearchTerm := ""
          filteredData := runFiltersPure cfg s.headers s.data "" s.activeTeamFilter
          currentPage := 1 }
  | .selectTeam k =>
      { s with
          activeTeamFilter := some k
          filteredData := runFiltersPure cfg s.headers s.data s.activeSearchTerm
            (some k)
          currentPage := 1 }
  | .clearTeamFilter =>
      { s with
          activeTeamFilter := none
          filteredData := runFiltersPure cfg s.headers s.data s.activeSearchTerm
            none
          currentPage := 1 }
  | .setPage n => { s with currentPage := n }
  | .setRowsPerPage n => { s with rowsPerPage := n, currentPage := 1 }
  | .clampPage =>
      let totalPages := totalPagesJS s.filteredData.length s.rowsPerPage
      if s.currentPage > totalPages then { s with currentPage := totalPages }
      else s

/-- The state reached by running a list of actions from the initial
(empty) session state. -/
def reach (cfg : TeamConfig) (acts : List Action) : AppState :=
  acts.foldl (step cfg) initialState

/-- Invariant I3 of the spec: the cached view is the active filter
specification applied to the master collection. -/
def viewInvariant (cfg : TeamConfig) (s : AppState) : Prop :=
  s.filteredData =
    runFiltersPure cfg s.headers s.data s.activeSearchTerm s.activeTeamFilter

/-! ## Basic lemmas about the row model and the filter stages -/

theorem getField_setField_self (row : Row) (c v : String) :
    getField (setField row c v) c = some v := by
  induction row with
  | nil => simp [setField, getField]
  | cons kv rest ih =>
      obtain ⟨k, x⟩ := kv
      by_cases h : k = c
      · simp [setField, getField, h]
      · simp [setField, getField, h, ih]

theorem getField_setField_ne (row : Row) (c c' v : String) (h : c' ≠ c) :
    getField (setField row c v) c' = getField row c' := by
  have hcc : ¬c = c' := fun hh => h hh.symm
  induction row with
  | nil => simp [setField, getField, hcc]
  | cons kv rest ih =>
      obtain ⟨k, x⟩ := kv
      by_cases hk : k = c
      · subst hk
        simp [setField, getField, hcc]
      · by_cases hk' : k = c'
        · simp [setField, getField, hk, hk', h]
        · simp [setField, getField, hk, hk', ih]

theorem strEmpty_jsToLower (s : String) :
    strEmpty (jsToLower s) = strEmpty s := by
  cases s with
  | mk l => cases l <;> simp [strEmpty, jsToLower]

theorem teamStage_sublist (cfg : TeamConfig) (headers : List String)
    (sourceData : List Row) (t : Option String) :
    (teamStage cfg headers sourceData t).Sublist sourceData := by
  cases t with
  | none => exact List.Sublist.refl _
  | some tk =>
      by_cases he : strEmpty tk
      · simp [teamStage, he]
      · cases hl : lookupTeam cfg tk with
        | none => simp [teamStage, he, hl]
        | some ids =>
            cases hh : jsHead headers with
            | none => simp [teamStage, he, hl, hh]
            | some keyColumn =>
                simp only [teamStage, he, hl, hh, Bool.false_eq_true,
                  if_false]
                exact List.filter_sublist _

theorem searchStage_sublist (termToApply : String) (results : List Row) :
    (searchStage termToApply results).Sublist results := by
  unfold searchStage
  by_cases h : strEmpty (jsToLower (jsTrim termToApply))
  · simp [h]
  · simp only [h, Bool.false_eq_true, if_false]
    exact List.filter_sublist _

theorem searchStage_of_empty_term (results : List Row) :
    searchStage "" results = results := rfl

theorem runFiltersPure_no_spec (cfg : TeamConfig) (headers : List String)
    (sourceData : List Row) :
    runFiltersPure cfg headers sourceData "" none = sourceData := rfl

theorem teamStage_eq_filter (cfg : TeamConfig) (headers : List String)
    (sourceData : List Row) (tk keyColumn : String) (ids : List String)
    (ht : strEmpty tk = false) (hl : lookupTeam cfg tk = some ids)
    (hh : jsHead headers = some keyColumn) :
    teamStage cfg headers sourceData (some tk) =
      sourceData.filter (rowInTeam ids keyColumn) := by
  simp [teamStage, ht, hl, hh]

theorem searchStage_eq_filter (termToApply : String) (results : List Row)
    (h : strEmpty (jsTrim termToApply) = false) :
    searchStage termToApply results =
      results.filter (rowMatchesSearch (jsToLower (jsTrim termToApply))) := by
  simp [searchStage, strEmpty_jsToLower, h]

/-- C2: the filtered view for spec (team `t`, search `s`) is a sublist
(hence a stable, order-preserving subset) of the view for (team `t`, no
search), which is a sublist of the master collection; every surviving
row passes the team-membership test whenever `t` is a selected,
configured team and a key column exists, and passes the case-insensitive
substring test whenever the trimmed search term is non-empty. -/
theorem runFilters_composition (cfg : TeamConfig) (headers : List String)
    (master : List Row) (s : String) (t : Option String)
    (tk keyColumn : String) (ids : List String) (row : Row) :
    (runFiltersPure cfg headers master s t).Sublist
      (runFiltersPure cfg headers master "" t) ∧
    (runFiltersPure cfg headers master "" t).Sublist master ∧
    (t = some tk → strEmpty tk = false → lookupTeam cfg tk = some ids →
      jsHead headers = some keyColumn →
      row ∈ runFiltersPure cfg headers master s t →
      rowInTeam ids keyColumn row = true) ∧
    (strEmpty (jsTrim s) = false →
      row ∈ runFiltersPure cfg headers master s t →
      rowMatchesSearch (jsToLower (jsTrim s)) row = true) := by
  refine ⟨?_, ?_, ?_, ?_⟩
  · show (searchStage s (teamStage cfg headers master t)).Sublist
      (searchStage "" (teamStage cfg headers master t))
    rw [searchStage_of_empty_term]
    exact searchStage_sublist _ _
  · show (searchStage "" (teamStage cfg headers master t)).Sublist master
    rw [searchStage_of_empty_term]
    exact teamStage_sublist cfg headers master t
  · intro hteq ht hl hh hmem
    subst hteq
    have hmem' : row ∈ teamStage cfg headers master (some tk) :=
      (searchStage_sublist s _).subset hmem
    rw [teamStage_eq_filter cfg headers master tk keyColumn ids ht hl hh]
      at hmem'
    exact (List.mem_filter.mp hmem').2
  · intro hs hmem
    unfold runFiltersPure at hmem
    rw [searchStage_eq_filter s _ hs] at hmem
    exact (List.mem_filter.mp hmem).2

/-- Witness for C2 on a concrete configured team, master and search
term: the single surviving row passes both filter stages' tests. -/
theorem runFilters_composition_witness :
    rowInTeam ["1"] "id" [("id", "1"), ("name", "Abc")] = true ∧
    rowMatchesSearch (jsToLower (jsTrim "ab"))
      [("id", "1"), ("name", "Abc")] = true := by
  have h := runFilters_composition [("t1", ["1"])] ["id", "name"]
    [[("id", "1"), ("name", "Abc")], [("id", "2"), ("name", "Zzz")]]
    "ab" (some "t1") "t1" "id" ["1"] [("id", "1"), ("name", "Abc")]
  exact ⟨h.2.2.1 rfl (by decide) (by decide) (by decide) (by decide),
    h.2.2.2 (by decide) (by decide)⟩

/-! ## Pagination properties -/

theorem one_le_totalPagesJS (totalRows rowsPerPage : Nat) :
    1 ≤ totalPagesJS totalRows rowsPerPage := by
  unfold totalPagesJS
  split
  · exact Nat.le_refl 1
  · exact Nat.pos_of_ne_zero (by assumption)

theorem totalPagesJS_eq_max (len p : Nat) :
    totalPagesJS len p = max 1 ((len + p - 1) / p) := by
  unfold totalPagesJS
  split
  · rename_i h
    rw [h]
    simp
  · rename_i h
    exact (Nat.max_eq_right (Nat.pos_of_ne_zero h)).symm

theorem length_le_totalPagesJS_mul (len p : Nat) (hp : 1 ≤ p) :
    len ≤ totalPagesJS len p * p := by
  have hkey : len + p - 1 ≤ p * ((len + p - 1) / p) + (p - 1) :=
    (Nat.div_le_iff_le_mul_add_pred (show 0 < p by omega)).mp
      (Nat.le_refl ((len + p - 1) / p))
  unfold totalPagesJS
  by_cases hq : (len + p - 1) / p = 0
  · rw [if_pos hq]
    rw [hq] at hkey
    omega
  · rw [if_neg hq, Nat.mul_comm]
    omega

theorem paginate_effectivePage (view : List Row) (p : Nat) (req : Int) :
    (paginate view p req).2.1 =
      max 1 (min req ((totalPagesJS view.length p : Nat) : Int)) := rfl

theorem paginate_totalPages (view : List Row) (p : Nat) (req : Int) :
    (paginate view p req).2.2 = totalPagesJS view.length p := rfl

/-- C3: the effective page computed by the pagination memo of
`src/unnamed/part_001` always lies in `[1, totalPages]`, whatever
integer page is requested (including 0 and negative values), and
`totalPages` is `max(1, ceil(len / pageSize))`. -/
theorem paginate_clamp (view : List Row) (p : Nat) (req : Int)
    (hp : 1 ≤ p) :
    1 ≤ (paginate view p req).2.1 ∧
    (paginate view p req).2.1 ≤ ((paginate view p req).2.2 : Int) ∧
    (paginate view p req).2.2 = max 1 ((view.length + p - 1) / p) := by
  have h1 : 1 ≤ totalPagesJS view.length p := one_le_totalPagesJS _ _
  rw [paginate_effectivePage, paginate_totalPages]
  refine ⟨le_max_left _ _, ?_, totalPagesJS_eq_max _ _⟩
  apply max_le
  · exact_mod_cast h1
  · exact min_le_right _ _

/-- Witness for C3: requesting page 10 of a 5-row view at page size 2 is
clamped to the effective page 3 of 3 (the spec's scenario example). -/
theorem paginate_clamp_witness :
    1 ≤ (paginate [[("id", "1")], [("id", "2")], [("id", "3")],
        [("id", "4")], [("id", "5")]] 2 10).2.1 ∧
    (paginate [[("id", "1")], [("id", "2")], [("id", "3")],
        [("id", "4")], [("id", "5")]] 2 10).2.1 ≤
      ((paginate [[("id", "1")], [("id", "2")], [("id", "3")],
        [("id", "4")], [("id", "5")]] 2 10).2.2 : Int) ∧
    (paginate [[("id", "1")], [("id", "2")], [("id", "3")],
        [("id", "4")], [("id", "5")]] 2 10).2.2 =
      max 1 ((([[("id", "1")], [("id", "2")], [("id", "3")],
        [("id", "4")], [("id", "5")]] : List Row).length + 2 - 1) / 2) :=
  paginate_clamp _ 2 10 (by decide)

theorem join_page_chunks {α : Type} (p : Nat) :
    ∀ (n : Nat) (l : List α), l.length ≤ n * p →
      ((List.range n).map (fun i => (l.drop (i * p)).take p)).flatten = l := by
  intro n
  induction n with
  | zero =>
      intro l hl
      simp only [Nat.zero_mul, Nat.le_zero, List.length_eq_zero] at hl
      simp [hl]
  | succ n ih =>
      intro l hl
      rw [List.range_succ_eq_map, List.map_cons, List.map_map,
        List.flatten_cons]
      simp only [Nat.zero_mul, List.drop_zero]
      have hmap : (List.range n).map
            ((fun i => (l.drop (i * p)).take p) ∘ Nat.succ) =
          (List.range n).map
            (fun i => (((l.drop p).drop (i * p)).take p)) := by
        apply List.map_congr_left
        intro i _
        show (l.drop (Nat.succ i * p)).take p =
          ((l.drop p).drop (i * p)).take p
        rw [List.drop_drop, Nat.succ_mul, Nat.add_comm (i * p) p]
      have hlen : (l.drop p).length ≤ n * p := by
        rw [List.length_drop]
        have h2 : (n + 1) * p = n * p + p := Nat.succ_mul n p
        omega
      rw [hmap, ih (l.drop p) hlen]
      exact List.take_append_drop p l

/-- C9: concatenating the page slices for pages 1 through `totalPages`
reconstructs the view exactly. -/
theorem pagination_coverage (view : List Row) (p : Nat) (hp : 1 ≤ p) :
    ((List.range (totalPagesJS view.length p)).map
      (fun i => pageSlice view p (i + 1))).flatten = view := by
  have hb := length_le_totalPagesJS_mul view.length p hp
  have hmap : (List.range (totalPagesJS view.length p)).map
        (fun i => pageSlice view p (i + 1)) =
      (List.range (totalPagesJS view.length p)).map
        (fun i => (view.drop (i * p)).take p) := by
    apply List.map_congr_left
    intro i _
    show (view.drop ((i + 1 - 1) * p)).take p = (view.drop (i * p)).take p
    congr 2
  rw [hmap]
  exact join_page_chunks p _ view hb

/-- Witness for C9: the three page-2 slices of a 5-row view concatenate
back to the view. -/
theorem pagination_coverage_witness :
    ((List.range (totalPagesJS ([[("id", "1")], [("id", "2")],
        [("id", "3")], [("id", "4")], [("id", "5")]] : List Row).length 2)).map
      (fun i => pageSlice [[("id", "1")], [("id", "2")], [("id", "3")],
        [("id", "4")], [("id", "5")]] 2 (i + 1))).flatten =
      [[("id", "1")], [("id", "2")], [("id", "3")], [("id", "4")],
        [("id", "5")]] :=
  pagination_coverage _ 2 (by decide)

end DataPack

namespace DataPack

/-! ## Edit propagator properties -/

theorem getField_updateRow_keyColumn (keyColumn : String)
    (rowToUpdate : Row) (columnId value : String) (row : Row)
    (hc : columnId ≠ keyColumn) :
    getField (updateRow keyColumn rowToUpdate columnId value row) keyColumn =
      getField row keyColumn := by
  unfold updateRow
  split
  · exact getField_setField_ne row columnId keyColumn value
      (fun h => hc h.symm)
  · rfl

/-- C4 (DataTable gate modelled from the spec): an edit request that
targets the key column is a no-op — the gated edit returns master and
view unchanged — and, whatever column an edit request targets, no row's
key-column value is ever changed, in the master or in the view. -/
theorem keyColumn_never_edited (headers : List String)
    (master view : List Row) (rowToUpdate : Row)
    (keyColumn columnId value : String)
    (hhead : jsHead headers = some keyColumn) :
    gatedDataChange headers master view rowToUpdate keyColumn value =
      (master, view) ∧
    (gatedDataChange headers master view rowToUpdate columnId value).1.map
        (fun row => getField row keyColumn) =
      master.map (fun row => getField row keyColumn) ∧
    (gatedDataChange headers master view rowToUpdate columnId value).2.map
        (fun row => getField row keyColumn) =
      view.map (fun row => getField row keyColumn) := by
  refine ⟨?_, ?_, ?_⟩
  · unfold gatedDataChange
    rw [hhead]
    simp
  all_goals {
    unfold gatedDataChange
    rw [hhead]
    by_cases hc : columnId = keyColumn
    · simp [hc]
    · simp only [hc, if_false]
      unfold handleDataChange
      rw [hhead]
      simp only [List.map_map]
      apply List.map_congr_left
      intro row _
      exact getField_updateRow_keyColumn keyColumn rowToUpdate columnId
        value row hc
  }

/-- Witness for C4: on a two-column dataset, a gated edit aimed at the
key column leaves both collections untouched, and a gated edit of the
name column leaves all key values in place. -/
theorem keyColumn_never_edited_witness :
    gatedDataChange ["id", "name"] [[("id", "1"), ("name", "A")]]
        [[("id", "1"), ("name", "A")]] [("id", "1"), ("name", "A")]
        "id" "2" =
      ([[("id", "1"), ("name", "A")]], [[("id", "1"), ("name", "A")]]) ∧
    (gatedDataChange ["id", "name"] [[("id", "1"), ("name", "A")]]
        [[("id", "1"), ("name", "A")]] [("id", "1"), ("name", "A")]
        "name" "2").1.map (fun row => getField row "id") =
      ([[("id", "1"), ("name", "A")]] : List Row).map
        (fun row => getField row "id") ∧
    (gatedDataChange ["id", "name"] [[("id", "1"), ("name", "A")]]
        [[("id", "1"), ("name", "A")]] [("id", "1"), ("name", "A")]
        "name" "2").2.map (fun row => getField row "id") =
      ([[("id", "1"), ("name", "A")]] : List Row).map
        (fun row => getField row "id") := by
  have h1 := keyColumn_never_edited ["id", "name"]
    [[("id", "1"), ("name", "A")]] [[("id", "1"), ("name", "A")]]
    [("id", "1"), ("name", "A")] "id" "id" "2" (by decide)
  have h2 := keyColumn_never_edited ["id", "name"]
    [[("id", "1"), ("name", "A")]] [[("id", "1"), ("name", "A")]]
    [("id", "1"), ("name", "A")] "id" "name" "2" (by decide)
  exact ⟨h1.1, h2.2.1, h2.2.2⟩

end DataPack

namespace DataPack

/-- C6: a cell edit of a non-key column rewrites master and cached view
with the identical per-row transformation, preserves both row counts,
leaves every row whose key-column value differs from the target's
untouched, and on matching rows changes the targeted column to the new
value while leaving every other column's value unchanged. -/
theorem editCell_frame (headers : List String) (master view : List Row)
    (rowToUpdate row : Row) (keyColumn columnId value otherColumn : String)
    (hhead : jsHead headers = some keyColumn)
    (hc : columnId ≠ keyColumn)
    (hpresent : ∃ r ∈ master,
      getField r keyColumn = getField rowToUpdate keyColumn) :
    (handleDataChange headers master view rowToUpdate columnId value).1 =
      master.map (updateRow keyColumn rowToUpdate columnId value) ∧
    (handleDataChange headers master view rowToUpdate columnId value).2 =
      view.map (updateRow keyColumn rowToUpdate columnId value) ∧
    (handleDataChange headers master view rowToUpdate columnId
        value).1.length = master.length ∧
    (handleDataChange headers master view rowToUpdate columnId
        value).2.length = view.length ∧
    (getField row keyColumn ≠ getField rowToUpdate keyColumn →
      updateRow keyColumn rowToUpdate columnId value row = row) ∧
    (getField row keyColumn = getField rowToUpdate keyColumn →
      getField (updateRow keyColumn rowToUpdate columnId value row)
          columnId = some value ∧
      (otherColumn ≠ columnId →
        getField (updateRow keyColumn rowToUpdate columnId value row)
            otherColumn = getField row otherColumn)) := by
  have h1 : (handleDataChange headers master view rowToUpdate columnId
      value).1 = master.map (updateRow keyColumn rowToUpdate columnId
      value) := by
    unfold handleDataChange
    rw [hhead]
  have h2 : (handleDataChange headers master view rowToUpdate columnId
      value).2 = view.map (updateRow keyColumn rowToUpdate columnId
      value) := by
    unfold handleDataChange
    rw [hhead]
  refine ⟨h1, h2, ?_, ?_, ?_, ?_⟩
  · rw [h1, List.length_map]
  · rw [h2, List.length_map]
  · intro hne
    unfold updateRow
    rw [if_neg hne]
  · intro heq
    unfold updateRow
    rw [if_pos heq]
    exact ⟨getField_setField_self row columnId value,
      fun ho => getField_setField_ne row columnId otherColumn value ho⟩

/-- Witness for C6: editing the name cell of row "2" to "Bee" (the
spec's scenario) updates exactly that cell in master and view and leaves
the untouched row "1" alone. -/
theorem editCell_frame_witness :
    (handleDataChange ["id", "name"]
        [[("id", "1"), ("name", "A")], [("id", "2"), ("name", "B")]]
        [[("id", "2"), ("name", "B")]] [("id", "2"), ("name", "B")]
        "name" "Bee").1 =
      ([[("id", "1"), ("name", "A")], [("id", "2"), ("name", "B")]] :
          List Row).map (updateRow "id" [("id", "2"), ("name", "B")]
        "name" "Bee") ∧
    (handleDataChange ["id", "name"]
        [[("id", "1"), ("name", "A")], [("id", "2"), ("name", "B")]]
        [[("id", "2"), ("name", "B")]] [("id", "2"), ("name", "B")]
        "name" "Bee").2 =
      ([[("id", "2"), ("name", "B")]] : List Row).map
        (updateRow "id" [("id", "2"), ("name", "B")] "name" "Bee") ∧
    (handleDataChange ["id", "name"]
        [[("id", "1"), ("name", "A")], [("id", "2"), ("name", "B")]]
        [[("id", "2"), ("name", "B")]] [("id", "2"), ("name", "B")]
        "name" "Bee").1.length =
      ([[("id", "1"), ("name", "A")], [("id", "2"), ("name", "B")]] :
          List Row).length ∧
    (handleDataChange ["id", "name"]
        [[("id", "1"), ("name", "A")], [("id", "2"), ("name", "B")]]
        [[("id", "2"), ("name", "B")]] [("id", "2"), ("name", "B")]
        "name" "Bee").2.length =
      ([[("id", "2"), ("name", "B")]] : List Row).length ∧
    (getField [("id", "1"), ("name", "A")] "id" ≠
        getField [("id", "2"), ("name", "B")] "id" →
      updateRow "id" [("id", "2"), ("name", "B")] "name" "Bee"
          [("id", "1"), ("name", "A")] = [("id", "1"), ("name", "A")]) ∧
    (getField [("id", "1"), ("name", "A")] "id" =
        getField [("id", "2"), ("name", "B")] "id" →
      getField (updateRow "id" [("id", "2"), ("name", "B")] "name" "Bee"
          [("id", "1"), ("name", "A")]) "name" = some "Bee" ∧
      ("id" ≠ "name" →
        getField (updateRow "id" [("id", "2"), ("name", "B")] "name"
            "Bee" [("id", "1"), ("name", "A")]) "id" =
          getField [("id", "1"), ("name", "A")] "id")) :=
  editCell_frame ["id", "name"]
    [[("id", "1"), ("name", "A")], [("id", "2"), ("name", "B")]]
    [[("id", "2"), ("name", "B")]] [("id", "2"), ("name", "B")]
    [("id", "1"), ("name", "A")] "id" "name" "Bee" "id" (by decide)
    (by decide) ⟨[("id", "2"), ("name", "B")], by decide⟩

end DataPack

namespace DataPack

/-! ## Merge/dedup properties -/

/-- The key-column values already present in the master collection
(`existingKeys` in `handleAddLegends`). -/
def masterKeys (keyColumn : String) (master : List Row) :
    List (Option String) :=
  master.map (fun row => getField row keyColumn)

/-- The rows `handleAddLegends` actually appends: the candidates whose
key is absent from the master's key set, in their original relative
order, turned into rows. -/
def appendedLegends (keyColumn nameColumn : String) (rest : List String)
    (master : List Row) (candidates : List (String × String)) : List Row :=
  (candidates.filter
    (fun c => !(masterKeys keyColumn master).contains (some c.1))).map
    (buildLegendRow keyColumn nameColumn rest)

theorem getField_buildLegendRow_key (keyColumn nameColumn : String)
    (rest : List String) (cand : String × String) :
    getField (buildLegendRow keyColumn nameColumn rest cand) keyColumn =
      some cand.1 := by
  simp [buildLegendRow, getField]

theorem mergeAppend_insufficient (headers : List String)
    (master : List Row) (candidates : List (String × String))
    (hlen : headers.length < 2) :
    mergeAppend headers master candidates =
      Except.error MergeError.insufficientColumns := by
  match headers, hlen with
  | [], _ => rfl
  | [a], _ => rfl

theorem step_addLegends_insufficient (cfg : TeamConfig) (st : AppState)
    (legends : String) (hlen : st.headers.length < 2) :
    step cfg st (.addLegends legends) =
      { st with error := insufficientColumnsMessage } := by
  simp only [step]
  rw [mergeAppend_insufficient st.headers st.data
    (legendCandidates legends) hlen]

theorem mergeAppend_ok (headers : List String) (master : List Row)
    (candidates : List (String × String))
    (keyColumn nameColumn : String) (rest : List String)
    (hh : headers = keyColumn :: nameColumn :: rest) :
    mergeAppend headers master candidates =
      Except.ok
        (master ++
          appendedLegends keyColumn nameColumn rest master candidates,
        (appendedLegends keyColumn nameColumn rest master
          candidates).length) := by
  subst hh
  unfold mergeAppend
  have hfil : (candidates.map
        (buildLegendRow keyColumn nameColumn rest)).filter
          (fun row =>
            !(master.map (fun r => getField r keyColumn)).contains
              (getField row keyColumn)) =
      appendedLegends keyColumn nameColumn rest master candidates := by
    rw [List.filter_map]
    unfold appendedLegends masterKeys
    congr 1
    apply List.filter_congr
    intro c _
    simp only [Function.comp_apply,
      getField_buildLegendRow_key keyColumn nameColumn rest c]
  simp only [hfil]

/-- C5: with at least two columns, the merge/dedup append produces the
master followed by exactly the candidate rows whose key was absent from
the master's key set, in order, every column beyond the first two filled
with the empty string; the appended count is the size difference; all
candidates being duplicates yields zero appended and no error; with
fewer than two columns it fails with `InsufficientColumns` and the
session state's collections, headers and page state are untouched. -/
theorem mergeAppend_spec (cfg : TeamConfig) (st : AppState)
    (legends : String) (headers : List String) (master : List Row)
    (candidates : List (String × String))
    (keyColumn nameColumn : String) (rest : List String)
    (cand : String × String) :
    (headers.length < 2 →
      mergeAppend headers master candidates =
        Except.error MergeError.insufficientColumns) ∧
    (st.headers.length < 2 →
      (step cfg st (.addLegends legends)).data = st.data ∧
      (step cfg st (.addLegends legends)).filteredData = st.filteredData ∧
      (step cfg st (.addLegends legends)).headers = st.headers ∧
      (step cfg st (.addLegends legends)).currentPage = st.currentPage ∧
      (step cfg st (.addLegends legends)).rowsPerPage = st.rowsPerPage ∧
      (step cfg st (.addLegends legends)).error =
        insufficientColumnsMessage) ∧
    (headers = keyColumn :: nameColumn :: rest →
      mergeAppend headers master candidates =
        Except.ok
          (master ++
            appendedLegends keyColumn nameColumn rest master candidates,
          (appendedLegends keyColumn nameColumn rest master
            candidates).length) ∧
      (master ++
          appendedLegends keyColumn nameColumn rest master
            candidates).length - master.length =
        (appendedLegends keyColumn nameColumn rest master
          candidates).length ∧
      (buildLegendRow keyColumn nameColumn rest cand).drop 2 =
        rest.map (fun h => (h, "")) ∧
      ((∀ c ∈ candidates,
          (masterKeys keyColumn master).contains (some c.1) = true) →
        mergeAppend headers master candidates = Except.ok (master, 0))) := by
  refine ⟨mergeAppend_insufficient headers master candidates, ?_, ?_⟩
  · intro hlen
    rw [step_addLegends_insufficient cfg st legends hlen]
    exact ⟨rfl, rfl, rfl, rfl, rfl, rfl⟩
  · intro hh
    have hok := mergeAppend_ok headers master candidates keyColumn
      nameColumn rest hh
    refine ⟨hok, ?_, rfl, ?_⟩
    · rw [List.length_append]
      omega
    · intro hall
      have hnil : appendedLegends keyColumn nameColumn rest master
          candidates = [] := by
        unfold appendedLegends
        have : candidates.filter
            (fun c => !(masterKeys keyColumn master).contains (some c.1)) =
            [] := by
          rw [List.filter_eq_nil_iff]
          intro c hc
          rw [hall c hc]
          simp
        rw [this, List.map_nil]
      rw [hok, hnil]
      simp

/-- Witness for C5: appending candidates with ids 2 (already present)
and 3 (fresh) to a two-row master appends exactly the fresh row (the
spec's scenario example), and an all-duplicate batch appends nothing. -/
theorem mergeAppend_spec_witness :
    mergeAppend ["id", "name"]
        [[("id", "1"), ("name", "A")], [("id", "2"), ("name", "B")]]
        [("2", "X"), ("3", "C")] =
      Except.ok
        ([[("id", "1"), ("name", "A")], [("id", "2"), ("name", "B")]] ++
          appendedLegends "id" "name" []
            [[("id", "1"), ("name", "A")], [("id", "2"), ("name", "B")]]
            [("2", "X"), ("3", "C")],
        (appendedLegends "id" "name" []
          [[("id", "1"), ("name", "A")], [("id", "2"), ("name", "B")]]
          [("2", "X"), ("3", "C")]).length) ∧
    mergeAppend ["id"]
        [[("id", "1"), ("name", "A")], [("id", "2"), ("name", "B")]]
        [("2", "X"), ("3", "C")] =
      Except.error MergeError.insufficientColumns ∧
    mergeAppend ["id", "name"]
        [[("id", "1"), ("name", "A")], [("id", "2"), ("name", "B")]]
        [("2", "X")] =
      Except.ok
        ([[("id", "1"), ("name", "A")], [("id", "2"), ("name", "B")]], 0) := by
  have h := mergeAppend_spec [] initialState "" ["id", "name"]
    [[("id", "1"), ("name", "A")], [("id", "2"), ("name", "B")]]
    [("2", "X"), ("3", "C")] "id" "name" [] ("2", "X")
  have h2 := mergeAppend_spec [] initialState "" ["id"]
    [[("id", "1"), ("name", "A")], [("id", "2"), ("name", "B")]]
    [("2", "X"), ("3", "C")] "id" "name" [] ("2", "X")
  have h3 := mergeAppend_spec [] initialState "" ["id", "name"]
    [[("id", "1"), ("name", "A")], [("id", "2"), ("name", "B")]]
    [("2", "X")] "id" "name" [] ("2", "X")
  exact ⟨(h.2.2 rfl).1, h2.1 (by decide),
    (h3.2.2 rfl).2.2.2 (by decide)⟩

end DataPack

namespace DataPack

/-! ## Load properties -/

theorem parseErrorMessage_ne_empty (e : String) :
    parseErrorMessage e ≠ "" := by
  intro h
  have h2 := congrArg String.data h
  simp [parseErrorMessage, String.data_append] at h2

theorem emptyDatasetMessage_ne_empty : emptyDatasetMessage ≠ "" := by
  decide

/-- C8: a failed load — parse errors present, or no row surviving the
blank-row check — leaves the master collection, cached view, column
list, file name, search and team-filter state and page state all exactly
as they were; a parse failure surfaces the first reported error's
message and an empty dataset surfaces the empty-dataset message. -/
theorem load_atomic_on_error (cfg : TeamConfig) (s : AppState)
    (errors fields : List String) (rows : List Row) (fname : String)
    (e : String) (es : List String)
    (hfail : errors ≠ [] ∨ nonEmptyFilter fields rows = []) :
    (step cfg s (.fileLoaded errors fields rows fname)).data = s.data ∧
    (step cfg s (.fileLoaded errors fields rows fname)).filteredData =
      s.filteredData ∧
    (step cfg s (.fileLoaded errors fields rows fname)).headers =
      s.headers ∧
    (step cfg s (.fileLoaded errors fields rows fname)).fileName =
      s.fileName ∧
    (step cfg s (.fileLoaded errors fields rows fname)).searchTerm =
      s.searchTerm ∧
    (step cfg s (.fileLoaded errors fields rows fname)).activeSearchTerm =
      s.activeSearchTerm ∧
    (step cfg s (.fileLoaded errors fields rows fname)).activeTeamFilter =
      s.activeTeamFilter ∧
    (step cfg s (.fileLoaded errors fields rows fname)).currentPage =
      s.currentPage ∧
    (step cfg s (.fileLoaded errors fields rows fname)).rowsPerPage =
      s.rowsPerPage ∧
    (errors = e :: es →
      (step cfg s (.fileLoaded errors fields rows fname)).error =
        parseErrorMessage e) ∧
    (errors = [] →
      (step cfg s (.fileLoaded errors fields rows fname)).error =
        emptyDatasetMessage) := by
  cases errors with
  | cons e' es' =>
      refine ⟨rfl, rfl, rfl, rfl, rfl, rfl, rfl, rfl, rfl, ?_, ?_⟩
      · intro hh
        cases hh
        rfl
      · intro hh
        cases hh
  | nil =>
      have hempty : nonEmptyFilter fields rows = [] := by
        cases hfail with
        | inl h => exact absurd rfl h
        | inr h => exact h
      have hred : step cfg s (.fileLoaded [] fields rows fname) =
          { s with error := emptyDatasetMessage } := by
        simp only [step, hempty, List.isEmpty_nil, if_true]
      rw [hred]
      exact ⟨rfl, rfl, rfl, rfl, rfl, rfl, rfl, rfl, rfl,
        fun hh => List.noConfusion hh, fun _ => rfl⟩

/-- Witness for C8: loading a file whose every row is blank fails with
the empty-dataset message and changes nothing else. -/
theorem load_atomic_on_error_witness :
    (step [] initialState
      (.fileLoaded [] ["id", "name"] [[("id", ""), ("name", " ")]]
        "f.csv")).data = initialState.data ∧
    (step [] initialState
      (.fileLoaded [] ["id", "name"] [[("id", ""), ("name", " ")]]
        "f.csv")).filteredData = initialState.filteredData ∧
    (step [] initialState
      (.fileLoaded [] ["id", "name"] [[("id", ""), ("name", " ")]]
        "f.csv")).headers = initialState.headers ∧
    (step [] initialState
      (.fileLoaded [] ["id", "name"] [[("id", ""), ("name", " ")]]
        "f.csv")).fileName = initialState.fileName ∧
    (step [] initialState
      (.fileLoaded [] ["id", "name"] [[("id", ""), ("name", " ")]]
        "f.csv")).searchTerm = initialState.searchTerm ∧
    (step [] initialState
      (.fileLoaded [] ["id", "name"] [[("id", ""), ("name", " ")]]
        "f.csv")).activeSearchTerm = initialState.activeSearchTerm ∧
    (step [] initialState
      (.fileLoaded [] ["id", "name"] [[("id", ""), ("name", " ")]]
        "f.csv")).activeTeamFilter = initialState.activeTeamFilter ∧
    (step [] initialState
      (.fileLoaded [] ["id", "name"] [[("id", ""), ("name", " ")]]
        "f.csv")).currentPage = initialState.currentPage ∧
    (step [] initialState
      (.fileLoaded [] ["id", "name"] [[("id", ""), ("name", " ")]]
        "f.csv")).rowsPerPage = initialState.rowsPerPage ∧
    (([] : List String) = "boom" :: [] →
      (step [] initialState
        (.fileLoaded [] ["id", "name"] [[("id", ""), ("name", " ")]]
          "f.csv")).error = parseErrorMessage "boom") ∧
    (([] : List String) = [] →
      (step [] initialState
        (.fileLoaded [] ["id", "name"] [[("id", ""), ("name", " ")]]
          "f.csv")).error = emptyDatasetMessage) :=
  load_atomic_on_error [] initialState [] ["id", "name"]
    [[("id", ""), ("name", " ")]] "f.csv" "boom" []
    (Or.inr (by decide))

end DataPack

namespace DataPack

/-- C7 counterexample: a load whose only row has a blank key-column
value but a non-blank name succeeds (no error), and the surviving master
row's key-column value is empty — the blank-key row was not dropped. -/
theorem load_keeps_blank_key_row :
    (step [] initialState
      (.fileLoaded [] ["id", "name"] [[("id", ""), ("name", "x")]]
        "f.csv")).error = "" ∧
    (step [] initialState
      (.fileLoaded [] ["id", "name"] [[("id", ""), ("name", "x")]]
        "f.csv")).headers = ["id", "name"] ∧
    (step [] initialState
      (.fileLoaded [] ["id", "name"] [[("id", ""), ("name", "x")]]
        "f.csv")).data = [[("id", ""), ("name", "x")]] ∧
    fieldNonBlank (getField [("id", ""), ("name", "x")] "id") = false := by
  refine ⟨?_, ?_, ?_, ?_⟩ <;> decide

/-- C7 (amended): after every successful load (signalled by a cleared
error message), every master row has at least one declared field whose
value is truthy and not whitespace-only, and conversely every parsed row
with such a field survives into the master collection — only rows all of
whose fields are blank are dropped. -/
theorem load_success_rows_nonblank (cfg : TeamConfig) (s : AppState)
    (errors fields : List String) (rows : List Row) (fname : String)
    (row : Row)
    (hok : (step cfg s (.fileLoaded errors fields rows fname)).error = "") :
    (row ∈ (step cfg s (.fileLoaded errors fields rows fname)).data →
      fields.any (fun f => fieldNonBlank (getField row f)) = true) ∧
    (row ∈ rows →
      fields.any (fun f => fieldNonBlank (getField row f)) = true →
      row ∈ (step cfg s (.fileLoaded errors fields rows fname)).data) := by
  cases errors with
  | cons e' es' =>
      exact absurd hok (parseErrorMessage_ne_empty e')
  | nil =>
      by_cases hemp : (nonEmptyFilter fields rows).isEmpty
      · have hred : step cfg s (.fileLoaded [] fields rows fname) =
            { s with error := emptyDatasetMessage } := by
          simp only [step, hemp, if_true]
        rw [hred] at hok
        exact absurd hok emptyDatasetMessage_ne_empty
      · have hred : step cfg s (.fileLoaded [] fields rows fname) =
            { s with
                error := ""
                fileName := fname
                headers := fields
                data := nonEmptyFilter fields rows
                filteredData := nonEmptyFilter fields rows
                currentPage := 1
                searchTerm := ""
                activeSearchTerm := ""
                activeTeamFilter := none } := by
          simp only [step, hemp, Bool.false_eq_true, if_false]
        rw [hred]
        constructor
        · intro hmem
          exact (List.mem_filter.mp hmem).2
        · intro hmem hnb
          exact List.mem_filter.mpr ⟨hmem, hnb⟩

/-- Witness for C7's amended theorem: a successful two-row load keeps
the all-blank row out and the half-blank row in. -/
theorem load_success_rows_nonblank_witness :
    ([("id", ""), ("name", "x")] ∈
      (step [] initialState
        (.fileLoaded [] ["id", "name"]
          [[("id", ""), ("name", "x")], [("id", ""), ("name", " ")]]
          "f.csv")).data →
      (["id", "name"].any (fun f =>
        fieldNonBlank (getField [("id", ""), ("name", "x")] f))) = true) ∧
    ([("id", ""), ("name", "x")] ∈
      [[("id", ""), ("name", "x")], [("id", ""), ("name", " ")]] →
      (["id", "name"].any (fun f =>
        fieldNonBlank (getField [("id", ""), ("name", "x")] f))) = true →
      [("id", ""), ("name", "x")] ∈
        (step [] initialState
          (.fileLoaded [] ["id", "name"]
            [[("id", ""), ("name", "x")], [("id", ""), ("name", " ")]]
            "f.csv")).data) :=
  load_success_rows_nonblank [] initialState [] ["id", "name"]
    [[("id", ""), ("name", "x")], [("id", ""), ("name", " ")]] "f.csv"
    [("id", ""), ("name", "x")] (by decide)

end DataPack

namespace DataPack

/-- C10: every re-application of the filter stage — search submit,
search clear, team selection, team-filter clear — and every change of
the rows-per-page size sets the current page back to 1 unconditionally,
whatever page the session was on. -/
theorem filter_reapply_resets_page (cfg : TeamConfig) (s : AppState)
    (k : String) (n : Nat) :
    (step cfg s .triggerSearch).currentPage = 1 ∧
    (step cfg s .clearSearch).currentPage = 1 ∧
    (step cfg s (.selectTeam k)).currentPage = 1 ∧
    (step cfg s .clearTeamFilter).currentPage = 1 ∧
    (step cfg s (.setRowsPerPage n)).currentPage = 1 :=
  ⟨rfl, rfl, rfl, rfl, rfl⟩

/-! ## The view/master consistency invariant (I3) -/

theorem viewInvariant_initial (cfg : TeamConfig) :
    viewInvariant cfg initialState := rfl

theorem step_preserves_viewInvariant (cfg : TeamConfig) (s : AppState)
    (a : Action) (ha : a.isEdit = false) (hs : viewInvariant cfg s) :
    viewInvariant cfg (step cfg s a) := by
  cases a with
  | fileLoaded errors fields rows fname =>
      cases errors with
      | cons e' es' => exact hs
      | nil =>
          by_cases hemp : (nonEmptyFilter fields rows).isEmpty
          · have hred : step cfg s (.fileLoaded [] fields rows fname) =
                { s with error := emptyDatasetMessage } := by
              simp only [step, hemp, if_true]
            rw [hred]
            exact hs
          · have hred : step cfg s (.fileLoaded [] fields rows fname) =
                { s with
                    error := ""
                    fileName := fname
                    headers := fields
                    data := nonEmptyFilter fields rows
                    filteredData := nonEmptyFilter fields rows
                    currentPage := 1
                    searchTerm := ""
                    activeSearchTerm := ""
                    activeTeamFilter := none } := by
              simp only [step, hemp, Bool.false_eq_true, if_false]
            rw [hred]
            exact (runFiltersPure_no_spec cfg fields
              (nonEmptyFilter fields rows)).symm
  | reset => exact viewInvariant_initial cfg
  | dataChange rowToUpdate columnId value => simp [Action.isEdit] at ha
  | addLegends legends =>
      show viewInvariant cfg (step cfg s (.addLegends legends))
      cases hm : mergeAppend s.headers s.data (legendCandidates legends) with
      | error err =>
          have hred : step cfg s (.addLegends legends) =
              { s with error := insufficientColumnsMessage } := by
            simp only [step, hm]
          rw [hred]
          exact hs
      | ok p =>
          obtain ⟨newData, cnt⟩ := p
          by_cases hcnt : cnt = 0
          · have hred : step cfg s (.addLegends legends) = s := by
              simp only [step, hm, hcnt, if_true]
            rw [hred]
            exact hs
          · have hred : step cfg s (.addLegends legends) =
                { s with
                    data := newData
                    filteredData := runFiltersPure cfg s.headers newData
                      s.activeSearchTerm s.activeTeamFilter
                    currentPage := 1 } := by
              simp only [step, hm, hcnt, if_false]
            rw [hred]
            exact rfl
  | setSearchTerm t => exact hs
  | triggerSearch => exact rfl
  | clearSearch => exact rfl
  | selectTeam k => exact rfl
  | clearTeamFilter => exact rfl
  | setPage n => exact hs
  | setRowsPerPage n => exact hs
  | clampPage =>
      show viewInvariant cfg (step cfg s .clampPage)
      by_cases hgt : s.currentPage >
          totalPagesJS s.filteredData.length s.rowsPerPage
      · have hred : step cfg s .clampPage =
            { s with currentPage :=
                totalPagesJS s.filteredData.length s.rowsPerPage } := by
          simp only [step, if_pos hgt]
        rw [hred]
        exact hs
      · have hred : step cfg s .clampPage = s := by
          simp only [step, if_neg hgt]
        rw [hred]
        exact hs

theorem viewInvariant_foldl (cfg : TeamConfig) (acts : List Action) :
    ∀ s : AppState, viewInvariant cfg s →
      (∀ a ∈ acts, a.isEdit = false) →
      viewInvariant cfg (acts.foldl (step cfg) s) := by
  induction acts with
  | nil =>
      intro s hs _
      exact hs
  | cons a as ih =>
      intro s hs hall
      simp only [List.foldl_cons]
      exact ih (step cfg s a)
        (step_preserves_viewInvariant cfg s a (hall a (by simp)) hs)
        (fun b hb => hall b (by simp [hb]))

/-- C1 (amended): in every session state reached by a trace of user
actions containing no cell edit, the cached view equals the active
filter specification applied to the master collection; a cell edit
instead patches master and view with the same per-row update, which can
leave the view different from a fresh filter application. -/
theorem view_matches_filter_of_editFree (cfg : TeamConfig)
    (acts : List Action) (h : ∀ a ∈ acts, a.isEdit = false) :
    viewInvariant cfg (reach cfg acts) :=
  viewInvariant_foldl cfg acts initialState (viewInvariant_initial cfg) h

/-- Witness for C1's amended theorem: after load followed by a search
submit, the cached view is the filter of the master. -/
theorem view_matches_filter_of_editFree_witness :
    viewInvariant [] (reach []
      [.fileLoaded [] ["id", "name"]
        [[("id", "1"), ("name", "abc")], [("id", "2"), ("name", "zzz")]]
        "f.csv",
       .setSearchTerm "abc", .triggerSearch]) :=
  view_matches_filter_of_editFree []
    [.fileLoaded [] ["id", "name"]
      [[("id", "1"), ("name", "abc")], [("id", "2"), ("name", "zzz")]]
      "f.csv",
     .setSearchTerm "abc", .triggerSearch] (by decide)

/-- C1 counterexample: a reachable state — load one row, submit the
search "abc", then edit the matching row's name to "xyz" — whose cached
view (still showing the edited row) differs from the active filter
specification applied to the master (which matches nothing), so the
view is not always `filter(master, activeFilterSpec)` after a cell
edit. -/
theorem view_desyncs_after_edit :
    ¬ viewInvariant [] (reach []
      [.fileLoaded [] ["id", "name"] [[("id", "1"), ("name", "abc")]]
        "f.csv",
       .setSearchTerm "abc", .triggerSearch,
       .dataChange [("id", "1"), ("name", "abc")] "name" "xyz"]) := by
  unfold viewInvariant
  decide

end DataPack
